import Mathlib

/-!
Verification of the Gauss-Seidel solver core of the exchequer macroeconomic
model (src/solver.py, src/config.py), via a shallow embedding.

Modelling conventions:
* A pandas DataFrame cell holds a double; we model defined finite values as
  rationals and collapse NaN / missing to `Option.none`.  A whole frame is a
  `Store`: the list of existing columns together with a total cell-valuation
  (cells of absent columns are unreadable through `Store.get`).
* An equation body is a function `Store → Int → EvalResult`; `raised` models a
  Python exception escaping the body, `nonfinite` models a returned
  None / NaN / ±inf, and `value x` a finite float result.
* Periods (`pd.Period`, quarterly) are modelled as `Int`: the solver only uses
  ordering, `t - 1` and `t + 1`.
* Floating point arithmetic is idealised as exact rational arithmetic; a
  division whose Python result would be non-finite (zero divisor) yields
  `none`.
-/

namespace Exchequer

/-- A two-dimensional time-series table: list of existing columns and the cell
contents, `none` standing for NaN/undefined.  Mirrors the pandas `DataFrame`
that `GaussSeidelSolver` mutates. -/
structure Store where
  columns : List String
  val : Int → String → Option ℚ

/-- Reading `data.at[t, v]`: cells of absent columns are unreadable (reads of
them in the source only occur where the column is known to exist or inside a
`try` block), and an absent column reads as undefined. -/
def Store.get (s : Store) (t : Int) (v : String) : Option ℚ :=
  if v ∈ s.columns then s.val t v else none

/-- Writing `data.at[t, v] = x` (all writes in the source target existing
columns; column membership is not changed by a cell write). -/
def Store.set (s : Store) (t : Int) (v : String) (x : Option ℚ) : Store :=
  { s with val := fun p w => if p = t ∧ w = v then x else s.val p w }

/-- Model of `data[v] = np.nan`: create column `v` filled with NaN. -/
def Store.addColumn (s : Store) (v : String) : Store :=
  { columns := v :: s.columns
    val := fun p w => if w = v then none else s.val p w }

/-- Outcome of evaluating one equation body `func(data, t)`:
an escaping exception, a non-finite result (None, NaN or ±inf), or a finite
value. -/
inductive EvalResult where
  | raised
  | nonfinite
  | value (x : ℚ)
deriving DecidableEq

/-- One registry entry: the `(name, func, eq_type)` triples of
`src/equations`. -/
structure Equation where
  name : String
  func : Store → Int → EvalResult
  kind : String

/-! Configuration constants from src/config.py. -/

def SOLVER_MAX_ITER : Nat := 200

def SOLVER_TOLERANCE : ℚ := 1 / 10 ^ 8

def SOLVER_DAMPING : ℚ := 7 / 10

/-- The `@ADD(V)` additive adjustment table (`config.ADDITIVE_ADJUSTMENTS`),
in insertion order. -/
def ADDITIVE_ADJUSTMENTS : List (String × String) :=
  [("PRMIP", "PRMIP_A"), ("PSNBCY", "PSNBCY_A"), ("SBHH", "SBHH_A"),
   ("TYWHH", "TYWHH_A"), ("EESC", "EESC_A"), ("MGDPNSA", "MGDPNSA_A")]

/-- The solver object: `GaussSeidelSolver` fields after `__init__`. -/
structure GaussSeidelSolver where
  equations : List Equation
  max_iter : Nat
  tol : ℚ
  damping : ℚ

/-- Python `x or default` for an optional int argument: `None` and `0` are
falsy. -/
def pyOrNat (x : Option Nat) (dflt : Nat) : Nat :=
  match x with
  | none => dflt
  | some n => if n = 0 then dflt else n

/-- Python `x or default` for an optional float argument: `None` and `0.0` are
falsy. -/
def pyOrRat (x : Option ℚ) (dflt : ℚ) : ℚ :=
  match x with
  | none => dflt
  | some q => if q = 0 then dflt else q

/-- Model of `GaussSeidelSolver.__init__`: every falsy argument is replaced by the
configured default. -/
def GaussSeidelSolver.make (equations : List Equation) (max_iter : Option Nat)
    (tolerance damping : Option ℚ) : GaussSeidelSolver :=
  { equations := equations
    max_iter := pyOrNat max_iter SOLVER_MAX_ITER
    tol := pyOrRat tolerance SOLVER_TOLERANCE
    damping := pyOrRat damping SOLVER_DAMPING }

/-- The field `self.endogenous_vars`: the registered variable names in order. -/
def GaussSeidelSolver.endogenousVars (S : GaussSeidelSolver) : List String :=
  S.equations.map Equation.name

/-! ### `_initialise_period` -/

/-- Body of the loop of `_initialise_period` for one endogenous name:
ensure the column exists, then seed period `t` from period `t-1`, falling back
to `1.0`. -/
def initStep (t : Int) (s : Store) (name : String) : Store :=
  let s1 := if name ∈ s.columns then s else s.addColumn name
  match s1.get t name with
  | some _ => s1
  | none =>
    match s1.get (t - 1) name with
    | some prev => s1.set t name (some prev)
    | none => s1.set t name (some 1)

/-- Model of `GaussSeidelSolver._initialise_period`. -/
def initialisePeriod (vars : List String) (st : Store) (t : Int) : Store :=
  vars.foldl (initStep t) st

/-! ### `_pre_solve_cost_block` -/

/-- Float division with non-finite collapse: a zero divisor would give
±inf/NaN in the source, collapsed here to `none`; `none` operands
propagate. -/
def fdiv (a b : Option ℚ) : Option ℚ :=
  match a, b with
  | some x, some y => if y = 0 then none else some (x / y)
  | _, _ => none

/-- The input columns read by `_pre_solve_cost_block`; a missing one raises
`KeyError`, caught by the surrounding `try`. -/
def costInputs : List String :=
  ["ULCMS", "PMNOG", "PMS", "PBRENT", "RXD", "BPAPS", "GVA", "PPIY",
   "ULCMSBASE", "PMNOGBASE", "PMSBASE", "OILBASE", "TXRATEBASE", "PPIYBASE"]

/-- Exogenous part `a1` of the SCOST equation. -/
def costA1 (ulc pmn pms oil tx ppiy : ℚ) : ℚ :=
  70.54 * ulc + 6.93 * pmn + 6.41 * pms + 0.09 * oil + 3.52 * tx + 9.78 * ppiy

/-- Exogenous part `a2` of the CCOST equation. -/
def costA2 (ulc pmn pms oil tx ppiy : ℚ) : ℚ :=
  40.25 * ulc + 2.80 * pmn + 0.90 * pms + 0.03 * oil + 0.51 * tx + 27.06 * ppiy

/-- Exogenous part `a3` of the UTCOST equation. -/
def costA3 (ulc pmn pms oil tx ppiy : ℚ) : ℚ :=
  14.85 * ulc + 3.04 * pmn + 0.51 * pms + 51.52 * oil + 2.90 * tx + 8.24 * ppiy

/-- Determinant of a 3×3 matrix by cofactor expansion along the first row. -/
def det3 (a b c d e f g h i : ℚ) : ℚ :=
  a * (e * i - f * h) - b * (d * i - f * g) + c * (d * h - e * g)

/-! Entries of the coefficient matrix `A = I - cross-terms/100` assembled by
`_pre_solve_cost_block`. -/

def cA11 : ℚ := 1
def cA12 : ℚ := -(1.64 / 100)
def cA13 : ℚ := -(1.09 / 100)
def cA21 : ℚ := -(28.13 / 100)
def cA22 : ℚ := 1
def cA23 : ℚ := -(0.34 / 100)
def cA31 : ℚ := -(16.00 / 100)
def cA32 : ℚ := -(2.95 / 100)
def cA33 : ℚ := 1

/-- The determinant of the cost-block coefficient matrix `A`. -/
def costDet : ℚ := det3 cA11 cA12 cA13 cA21 cA22 cA23 cA31 cA32 cA33

/-- Model of `np.linalg.solve(A, b)` for the fixed cost-block matrix, idealised to the
exact solution (Cramer's rule). -/
def costSolve (b1 b2 b3 : ℚ) : ℚ × ℚ × ℚ :=
  (det3 b1 cA12 cA13 b2 cA22 cA23 b3 cA32 cA33 / costDet,
   det3 cA11 b1 cA13 cA21 b2 cA23 cA31 b3 cA33 / costDet,
   det3 cA11 cA12 b1 cA21 cA22 b2 cA31 cA32 b3 / costDet)

/-- The linear solve on possibly non-finite right-hand sides: a non-finite
component of `b` makes every component of `np.linalg.solve(A, b)` non-finite
(the inverse of `A` is dense), which the source then stores. -/
def costSolveO : Option ℚ → Option ℚ → Option ℚ →
    Option ℚ × Option ℚ × Option ℚ
  | some b1, some b2, some b3 =>
    let s := costSolve b1 b2 b3
    (some s.1, some s.2.1, some s.2.2)
  | _, _, _ => (none, none, none)

/-- Model of `GaussSeidelSolver._pre_solve_cost_block`: skipped when `SCOST` is not a
column or any input column is missing (a read of it raises `KeyError`, caught
by the `except`); otherwise the three results — non-finite if any input cell
is undefined — are written at period `t`. -/
def preSolveCostBlock (st : Store) (t : Int) : Store :=
  if "SCOST" ∈ st.columns ∧ ∀ v ∈ costInputs, v ∈ st.columns then
    let ulc_r := fdiv (st.val t "ULCMS") (st.val t "ULCMSBASE")
    let pmn_r := fdiv (st.val t "PMNOG") (st.val t "PMNOGBASE")
    let pms_r := fdiv (st.val t "PMS") (st.val t "PMSBASE")
    let oil_r := fdiv (fdiv (st.val t "PBRENT") (st.val t "RXD")) (st.val t "OILBASE")
    let tx_r := fdiv (fdiv (st.val t "BPAPS") (st.val t "GVA")) (st.val t "TXRATEBASE")
    let ppiy_r := fdiv (st.val t "PPIY") (st.val t "PPIYBASE")
    let sol :=
      match ulc_r, pmn_r, pms_r, oil_r, tx_r, ppiy_r with
      | some u, some m, some s, some o, some x, some p =>
        costSolveO (some (costA1 u m s o x p)) (some (costA2 u m s o x p))
          (some (costA3 u m s o x p))
      | _, _, _, _, _, _ => (none, none, none)
    ((st.set t "SCOST" sol.1).set t "CCOST" sol.2.1).set t "UTCOST" sol.2.2
  else st

/-! ### `_apply_additive_adjustments` -/

/-- One entry of the `@ADD(V)` loop: if both columns exist and the adjustment
cell is defined, add it in place to the target cell (`NaN += x` stays NaN). -/
def adjStep (t : Int) (s : Store) (pr : String × String) : Store :=
  if pr.1 ∈ s.columns ∧ pr.2 ∈ s.columns then
    match s.get t pr.2 with
    | some adj =>
      match s.get t pr.1 with
      | some cur => s.set t pr.1 (some (cur + adj))
      | none => s.set t pr.1 none
    | none => s
  else s

/-- Model of `GaussSeidelSolver._apply_additive_adjustments`. -/
def applyAdditiveAdjustments (st : Store) (t : Int) : Store :=
  ADDITIVE_ADJUSTMENTS.foldl (adjStep t) st

/-! ### The sweep -/

/-- The near-zero guard of the relative-change metric (`1e-10` in the
source). -/
def nearZeroEps : ℚ := 1 / 10 ^ 10

/-- The damped relaxation blend `damping*computed + (1-damping)*old` of
solver.py line 155. -/
def damp (d new old : ℚ) : ℚ := d * new + (1 - d) * old

/-- Mutable state threaded through one sweep: the store plus the tracked
`max_change` and `worst_var`. -/
structure SweepState where
  st : Store
  maxChange : ℚ
  worstVar : String

/-- The body of the inner `for name, func, eq_type in self.equations` loop:
read the old value (NaN as 0.0), evaluate, skip on exception or non-finite
result, otherwise store the damped value and track the relative change when
`|old| > 1e-10`. -/
def sweepStep (d : ℚ) (t : Int) (s : SweepState) (eq : Equation) : SweepState :=
  let old := (s.st.get t eq.name).getD 0
  match eq.func s.st t with
  | .raised => s
  | .nonfinite => s
  | .value x =>
    let dv := damp d x old
    let st1 := s.st.set t eq.name (some dv)
    if |old| > nearZeroEps then
      let rel := |(dv - old) / old|
      if rel > s.maxChange then ⟨st1, rel, eq.name⟩
      else ⟨st1, s.maxChange, s.worstVar⟩
    else ⟨st1, s.maxChange, s.worstVar⟩

/-- One full pass over the registry, starting from `max_change = 0.0`,
`worst_var = ''`. -/
def sweep (eqs : List Equation) (d : ℚ) (t : Int) (st : Store) : SweepState :=
  eqs.foldl (sweepStep d t) ⟨st, 0, ""⟩

/-- Result of the bounded iteration loop of `solve_period`: either convergence
after a 1-based number of sweeps, or budget exhaustion carrying the final
sweep's `max_change` and `worst_var` (the data of the warning message). -/
inductive SweepOutcome where
  | converged (iters : Nat) (st : Store)
  | exhausted (maxChange : ℚ) (worstVar : String) (st : Store)

/-- The store held when the loop ends. -/
def SweepOutcome.store : SweepOutcome → Store
  | .converged _ st => st
  | .exhausted _ _ st => st

/-- Whether the loop ran out of budget. -/
def SweepOutcome.isExhausted : SweepOutcome → Bool
  | .converged _ _ => false
  | .exhausted _ _ _ => true

/-- The final sweep's tracked `max_change` (0 if converged, where it is below
tolerance anyway). -/
def SweepOutcome.maxChange : SweepOutcome → ℚ
  | .converged _ _ => 0
  | .exhausted mc _ _ => mc

/-- The final sweep's tracked `worst_var`. -/
def SweepOutcome.worstVar : SweepOutcome → String
  | .converged _ _ => ""
  | .exhausted _ wv _ => wv

/-- The `for iteration in range(self.max_iter)` loop of `solve_period`:
`last` carries the previous sweep's `(max_change, worst_var)` (read by the
warning when the budget runs out), `done` the number of completed sweeps,
`rem` the remaining budget. -/
def sweepLoop (eqs : List Equation) (d tol : ℚ) (t : Int) :
    ℚ × String → Nat → Nat → Store → SweepOutcome
  | last, _, 0, st => .exhausted last.1 last.2 st
  | _, done, rem + 1, st =>
    let r := sweep eqs d t st
    if r.maxChange < tol then .converged (done + 1) r.st
    else sweepLoop eqs d tol t (r.maxChange, r.worstVar) (done + 1) rem r.st

/-! ### `solve_period` and `solve_range` -/

/-- What `solve_period` produces: the returned iteration count, the mutated
store, and the non-convergence warning data (worst variable and its last
relative change) if one was printed. -/
structure PeriodResult where
  iterations : Nat
  store : Store
  warning : Option (String × ℚ)

/-- The sweep-loop phase of `solve_period` (steps 1-3: initialise, pre-solve,
iterate). -/
def periodLoop (S : GaussSeidelSolver) (st : Store) (t : Int) : SweepOutcome :=
  sweepLoop S.equations S.damping S.tol t (0, "") 0 S.max_iter
    (preSolveCostBlock (initialisePeriod S.endogenousVars st t) t)

/-- Model of `GaussSeidelSolver.solve_period`: on convergence apply the additive
adjustments and return the sweep count; on exhaustion warn, apply the
adjustments to the best-effort state, and return `max_iter`. -/
def solvePeriod (S : GaussSeidelSolver) (st : Store) (t : Int) : PeriodResult :=
  match periodLoop S st t with
  | .converged n st1 => ⟨n, applyAdditiveAdjustments st1 t, none⟩
  | .exhausted mc wv st1 =>
    ⟨S.max_iter, applyAdditiveAdjustments st1 t, some (wv, mc)⟩

/-- The `while t <= end_period` loop of `solve_range`, with the number of
remaining periods made explicit as fuel. -/
def solveRangeGo (S : GaussSeidelSolver) : Nat → Int → Store → Store × List (Int × Nat)
  | 0, _, st => (st, [])
  | n + 1, t, st =>
    let r := solvePeriod S st t
    let rest := solveRangeGo S n (t + 1) r.store
    (rest.1, (t, r.iterations) :: rest.2)

/-- Model of `GaussSeidelSolver.solve_range`: solve each period of
`[start_period, end_period]` in ascending order, collecting `(t, iters)`
records. -/
def solveRange (S : GaussSeidelSolver) (st : Store) (startP endP : Int) :
    Store × List (Int × Nat) :=
  solveRangeGo S (endP - startP + 1).toNat startP st

/-! ### Basic store lemmas -/

theorem Store.set_columns (s : Store) (t : Int) (v : String) (x : Option ℚ) :
    (s.set t v x).columns = s.columns := rfl

theorem Store.get_set_of_ne (s : Store) (t : Int) (v : String) (x : Option ℚ)
    (p : Int) (w : String) (h : p ≠ t ∨ w ≠ v) :
    (s.set t v x).get p w = s.get p w := by
  have hc : ¬(p = t ∧ w = v) := by tauto
  unfold Store.get Store.set
  by_cases hw : w ∈ s.columns
  · rw [if_pos hw, if_pos hw]
    exact if_neg hc
  · rw [if_neg hw, if_neg hw]

theorem Store.get_set_self (s : Store) (t : Int) (v : String) (x : Option ℚ)
    (h : v ∈ s.columns) : (s.set t v x).get t v = x := by
  unfold Store.get Store.set
  rw [if_pos h]
  exact if_pos ⟨rfl, rfl⟩

theorem Store.get_addColumn (s : Store) (v : String) (hv : v ∉ s.columns)
    (p : Int) (w : String) : (s.addColumn v).get p w = s.get p w := by
  unfold Store.get Store.addColumn
  by_cases hw : w = v
  · subst hw
    simp [hv]
  · simp [hw, List.mem_cons]

/-- The ensure-column step (the first two lines of the `_initialise_period` loop body)
never changes any readable cell. -/
theorem ensureColumn_get (s : Store) (name : String) (p : Int) (w : String) :
    (if name ∈ s.columns then s else s.addColumn name).get p w = s.get p w := by
  split
  · rfl
  · exact Store.get_addColumn s name (by assumption) p w

/-- Folding a per-element store transform that leaves cell `(p, w)` readable
unchanged leaves it unchanged overall. -/
theorem foldl_get_eq {α : Type} (f : Store → α → Store) (p : Int) (w : String)
    (hf : ∀ s a, (f s a).get p w = s.get p w) :
    ∀ (l : List α) (s : Store), (l.foldl f s).get p w = s.get p w
  | [], _ => rfl
  | a :: l, s => by
    rw [List.foldl_cons, foldl_get_eq f p w hf l (f s a), hf]

/-! ### Writes of `solve_period` stay at period `t` -/

theorem initStep_get_ne (t : Int) (s : Store) (name : String)
    (p : Int) (w : String) (hp : p ≠ t) :
    (initStep t s name).get p w = s.get p w := by
  simp only [initStep]
  split
  · exact ensureColumn_get s name p w
  · split
    · rw [Store.get_set_of_ne _ _ _ _ _ _ (Or.inl hp)]
      exact ensureColumn_get s name p w
    · rw [Store.get_set_of_ne _ _ _ _ _ _ (Or.inl hp)]
      exact ensureColumn_get s name p w

theorem initialisePeriod_get_ne (vars : List String) (st : Store) (t : Int)
    (p : Int) (w : String) (hp : p ≠ t) :
    (initialisePeriod vars st t).get p w = st.get p w :=
  foldl_get_eq (initStep t) p w (fun s a => initStep_get_ne t s a p w hp) vars st

theorem preSolveCostBlock_get_ne (st : Store) (t : Int)
    (p : Int) (w : String) (hp : p ≠ t) :
    (preSolveCostBlock st t).get p w = st.get p w := by
  unfold preSolveCostBlock
  split
  · rw [Store.get_set_of_ne _ _ _ _ _ _ (Or.inl hp),
      Store.get_set_of_ne _ _ _ _ _ _ (Or.inl hp),
      Store.get_set_of_ne _ _ _ _ _ _ (Or.inl hp)]
  · rfl

theorem adjStep_get_ne (t : Int) (s : Store) (pr : String × String)
    (p : Int) (w : String) (h : p ≠ t ∨ w ≠ pr.1) :
    (adjStep t s pr).get p w = s.get p w := by
  unfold adjStep
  split
  · split
    · split
      · exact Store.get_set_of_ne _ _ _ _ _ _ h
      · exact Store.get_set_of_ne _ _ _ _ _ _ h
    · rfl
  · rfl

theorem adjStep_columns (t : Int) (s : Store) (pr : String × String) :
    (adjStep t s pr).columns = s.columns := by
  unfold adjStep
  split
  · split
    · split <;> rfl
    · rfl
  · rfl

theorem applyAdditiveAdjustments_get_ne (st : Store) (t : Int)
    (p : Int) (w : String) (hp : p ≠ t) :
    (applyAdditiveAdjustments st t).get p w = st.get p w :=
  foldl_get_eq (adjStep t) p w
    (fun s pr => adjStep_get_ne t s pr p w (Or.inl hp)) ADDITIVE_ADJUSTMENTS st

theorem sweepStep_st_get_ne (d : ℚ) (t : Int) (s : SweepState) (eq1 : Equation)
    (p : Int) (w : String) (hp : p ≠ t) :
    (sweepStep d t s eq1).st.get p w = s.st.get p w := by
  simp only [sweepStep]
  split
  · rfl
  · rfl
  · split
    · split
      · exact Store.get_set_of_ne _ _ _ _ _ _ (Or.inl hp)
      · exact Store.get_set_of_ne _ _ _ _ _ _ (Or.inl hp)
    · exact Store.get_set_of_ne _ _ _ _ _ _ (Or.inl hp)

theorem sweepFold_st_get_ne (d : ℚ) (t : Int) (p : Int) (w : String) (hp : p ≠ t) :
    ∀ (eqs : List Equation) (s : SweepState),
      ((eqs.foldl (sweepStep d t) s).st).get p w = s.st.get p w
  | [], _ => rfl
  | e :: eqs, s => by
    rw [List.foldl_cons, sweepFold_st_get_ne d t p w hp eqs (sweepStep d t s e),
      sweepStep_st_get_ne d t s e p w hp]

theorem sweep_st_get_ne (eqs : List Equation) (d : ℚ) (t : Int) (st : Store)
    (p : Int) (w : String) (hp : p ≠ t) :
    (sweep eqs d t st).st.get p w = st.get p w :=
  sweepFold_st_get_ne d t p w hp eqs ⟨st, 0, ""⟩

theorem sweepLoop_store_get_ne (eqs : List Equation) (d tol : ℚ) (t : Int)
    (p : Int) (w : String) (hp : p ≠ t) :
    ∀ (rem : Nat) (last : ℚ × String) (done : Nat) (st : Store),
      (sweepLoop eqs d tol t last done rem st).store.get p w = st.get p w
  | 0, _, _, _ => rfl
  | rem + 1, last, done, st => by
    simp only [sweepLoop]
    split
    · exact sweep_st_get_ne eqs d t st p w hp
    · rw [sweepLoop_store_get_ne eqs d tol t p w hp rem _ (done + 1) _,
        sweep_st_get_ne eqs d t st p w hp]

theorem periodLoop_store_get_ne (S : GaussSeidelSolver) (st : Store) (t : Int)
    (p : Int) (w : String) (hp : p ≠ t) :
    (periodLoop S st t).store.get p w = st.get p w := by
  unfold periodLoop
  rw [sweepLoop_store_get_ne _ _ _ _ _ _ hp, preSolveCostBlock_get_ne _ _ _ _ hp,
    initialisePeriod_get_ne _ _ _ _ _ hp]

/-- Reduction of `solve_period` in the converged case. -/
theorem solvePeriod_of_converged (S : GaussSeidelSolver) (st : Store) (t : Int)
    (n : Nat) (st1 : Store) (h : periodLoop S st t = .converged n st1) :
    solvePeriod S st t = ⟨n, applyAdditiveAdjustments st1 t, none⟩ := by
  simp only [solvePeriod, h]

/-- Reduction of `solve_period` in the budget-exhausted case. -/
theorem solvePeriod_of_exhausted (S : GaussSeidelSolver) (st : Store) (t : Int)
    (mc : ℚ) (wv : String) (st1 : Store) (h : periodLoop S st t = .exhausted mc wv st1) :
    solvePeriod S st t = ⟨S.max_iter, applyAdditiveAdjustments st1 t, some (wv, mc)⟩ := by
  simp only [solvePeriod, h]

theorem solvePeriod_store_get_ne (S : GaussSeidelSolver) (st : Store) (t : Int)
    (p : Int) (w : String) (hp : p ≠ t) :
    (solvePeriod S st t).store.get p w = st.get p w := by
  have h1 := periodLoop_store_get_ne S st t p w hp
  rcases hout : periodLoop S st t with ⟨n, st1⟩ | ⟨mc, wv, st1⟩
  · rw [hout] at h1
    rw [solvePeriod_of_converged S st t n st1 hout]
    rw [applyAdditiveAdjustments_get_ne _ _ _ _ hp]
    exact h1
  · rw [hout] at h1
    rw [solvePeriod_of_exhausted S st t mc wv st1 hout]
    rw [applyAdditiveAdjustments_get_ne _ _ _ _ hp]
    exact h1

theorem solveRangeGo_get_lt (S : GaussSeidelSolver) (p : Int) (w : String) :
    ∀ (n : Nat) (t : Int) (st : Store), p < t →
      (solveRangeGo S n t st).1.get p w = st.get p w
  | 0, _, _, _ => rfl
  | n + 1, t, st, h => by
    simp only [solveRangeGo]
    rw [solveRangeGo_get_lt S p w n (t + 1) _ (by omega),
      solvePeriod_store_get_ne S st t p w (by omega)]

theorem solveRangeGo_add (S : GaussSeidelSolver) :
    ∀ (n m : Nat) (t : Int) (st : Store),
      solveRangeGo S (n + m) t st =
        ((solveRangeGo S m (t + (n : ℤ)) (solveRangeGo S n t st).1).1,
         (solveRangeGo S n t st).2 ++
           (solveRangeGo S m (t + (n : ℤ)) (solveRangeGo S n t st).1).2) := by
  intro n
  induction n with
  | zero =>
    intro m t st
    simp [solveRangeGo]
  | succ n ih =>
    intro m t st
    have hnm : n + 1 + m = (n + m) + 1 := by omega
    rw [hnm]
    simp only [solveRangeGo]
    rw [ih m (t + 1) (solvePeriod S st t).store]
    have harith : t + 1 + (n : ℤ) = t + ((n : ℤ) + 1) := by ring
    rw [harith]
    push_cast
    rfl

/-- C1: solving `[t0, t1]` and solving `[t0, t2]` with `t1 < t2` from the same
initial store give identical stored values for every variable at every period
of `[t0, t1]`: the `[t0, t1]` computation is a prefix of the `[t0, t2]` one,
and solving a later period writes only at that period. -/
theorem solveRange_no_contamination (S : GaussSeidelSolver) (st : Store)
    (t0 t1 t2 p : Int) (v : String) (h0 : t0 ≤ p) (h1 : p ≤ t1) (h2 : t1 < t2) :
    (solveRange S st t0 t1).1.get p v = (solveRange S st t0 t2).1.get p v := by
  unfold solveRange
  have hn : (t2 - t0 + 1).toNat = (t1 - t0 + 1).toNat + (t2 - t1).toNat := by omega
  rw [hn, solveRangeGo_add]
  rw [solveRangeGo_get_lt S p v ((t2 - t1).toNat)
    (t0 + (((t1 - t0 + 1).toNat : ℕ) : ℤ)) _ (by omega)]

/-- Witness for C1 at a concrete one-equation model: the value solved for
period 0 is unaffected by extending the range to period 1. -/
theorem solveRange_no_contamination_witness :
    (0 : ℤ) ≤ 0 ∧ (0 : ℤ) ≤ 0 ∧ (0 : ℤ) < 1 ∧
      (solveRange ⟨[⟨"X", fun _ _ => .value 5, "identity"⟩], 3, 1 / 10 ^ 8, 7 / 10⟩
          ⟨["X"], fun _ _ => none⟩ 0 0).1.get 0 "X" =
        (solveRange ⟨[⟨"X", fun _ _ => .value 5, "identity"⟩], 3, 1 / 10 ^ 8, 7 / 10⟩
          ⟨["X"], fun _ _ => none⟩ 0 1).1.get 0 "X" :=
  ⟨le_refl 0, le_refl 0, by omega,
    solveRange_no_contamination _ _ 0 0 1 0 "X" (le_refl 0) (le_refl 0) (by omega)⟩

/-! ### Concrete fixtures used by witnesses and counterexamples -/

/-- A one-variable identity equation `X := 5`. -/
def eqX : Equation := ⟨"X", fun _ _ => .value 5, "identity"⟩

/-- An equation whose body always raises. -/
def eqFailR : Equation := ⟨"B", fun _ _ => .raised, "identity"⟩

/-- An equation for `X` whose body always returns a non-finite value. -/
def eqFailN : Equation := ⟨"X", fun _ _ => .nonfinite, "identity"⟩

/-- A store with column `X` holding 1.0 at period 0 and NaN elsewhere. -/
def stX : Store := ⟨["X"], fun p v => if p = 0 ∧ v = "X" then some 1 else none⟩

/-- A store with column `X` entirely NaN. -/
def stNaN : Store := ⟨["X"], fun _ _ => none⟩

/-- A solver over `eqX` with `max_iter = 1`, `tolerance = 1e-3` and
`damping = 1`, so one sweep never meets tolerance. -/
def Sdiverge : GaussSeidelSolver := ⟨[eqX], 1, 1 / 1000, 1⟩

/-- A solver whose only equation always returns a non-finite value. -/
def SnonFin : GaussSeidelSolver := ⟨[eqFailN], 5, 1 / 10 ^ 8, 7 / 10⟩

/-! ### C7: damping convexity -/

/-- C7: for damping `d ∈ [0,1]`, the stored damped value
`d*computed + (1-d)*old` of the sweep lies between the old value and the
undamped computed value, inclusive. -/
theorem damp_between (d new old : ℚ) (h0 : 0 ≤ d) (h1 : d ≤ 1) :
    min old new ≤ damp d new old ∧ damp d new old ≤ max old new := by
  unfold damp
  rcases le_total old new with h | h
  · rw [min_eq_left h, max_eq_right h]
    constructor <;> nlinarith
  · rw [min_eq_right h, max_eq_left h]
    constructor <;> nlinarith

/-- Witness for C7 at `d = 0.7`, `computed = 12`, `old = 2`. -/
theorem damp_between_witness :
    (0 : ℚ) ≤ 7 / 10 ∧ (7 / 10 : ℚ) ≤ 1 ∧
      min (2 : ℚ) 12 ≤ damp (7 / 10) 12 2 ∧ damp (7 / 10) 12 2 ≤ max (2 : ℚ) 12 :=
  ⟨by norm_num, by norm_num,
    (damp_between (7 / 10) 12 2 (by norm_num) (by norm_num)).1,
    (damp_between (7 / 10) 12 2 (by norm_num) (by norm_num)).2⟩

/-! ### C9: falsy constructor arguments -/

/-- C9: `GaussSeidelSolver.__init__` treats `0` (and `0.0`) like an absent
argument — the configured defaults 200, 1e-8 and 0.7 are used — and in
particular no choice of arguments can configure a damping factor of exactly
`0.0` (the resulting damping is always strictly negative or strictly
positive). -/
theorem make_falsy_uses_defaults (eqs : List Equation) :
    GaussSeidelSolver.make eqs (some 0) (some 0) (some 0) =
      ⟨eqs, 200, 1 / 10 ^ 8, 7 / 10⟩ ∧
    ∀ (mi : Option Nat) (tl dm : Option ℚ),
      (GaussSeidelSolver.make eqs mi tl dm).damping < 0 ∨
        0 < (GaussSeidelSolver.make eqs mi tl dm).damping := by
  constructor
  · simp [GaussSeidelSolver.make, pyOrNat, pyOrRat, SOLVER_MAX_ITER,
      SOLVER_TOLERANCE, SOLVER_DAMPING]
  · intro mi tl dm
    rcases dm with _ | q
    · right
      norm_num [GaussSeidelSolver.make, pyOrRat, SOLVER_DAMPING]
    · by_cases hq : q = 0
      · right
        simp only [GaussSeidelSolver.make, pyOrRat, hq, if_pos]
        norm_num [SOLVER_DAMPING]
      · rcases lt_or_gt_of_ne hq with h | h
        · left
          simpa only [GaussSeidelSolver.make, pyOrRat, if_neg hq] using h
        · right
          simpa only [GaussSeidelSolver.make, pyOrRat, if_neg hq] using h

/-! ### C8 and C10: behaviour of a single sweep step -/

/-- A sweep step whose equation raises or returns a non-finite value changes
nothing: neither the store nor the convergence tracking. -/
theorem sweepStep_of_failed (d : ℚ) (t : Int) (s : SweepState) (eq1 : Equation)
    (h : eq1.func s.st t = .raised ∨ eq1.func s.st t = .nonfinite) :
    sweepStep d t s eq1 = s := by
  rcases h with h | h <;> simp [sweepStep, h]

/-- C8: an equation whose evaluation raises or returns None/NaN/inf leaves its
variable's stored value (and the whole sweep state) unchanged for that pass,
and the sweep continues with the remaining registry — deleting an
always-failing equation from the registry does not change the sweep at all. -/
theorem failing_equation_is_skipped :
    (∀ (d : ℚ) (t : Int) (s : SweepState) (eq1 : Equation),
        (eq1.func s.st t = .raised ∨ eq1.func s.st t = .nonfinite) →
          sweepStep d t s eq1 = s) ∧
    ∀ (d : ℚ) (t : Int) (st : Store) (eqs1 eqs2 : List Equation) (bad : Equation),
      (∀ st1 : Store, bad.func st1 t = .raised ∨ bad.func st1 t = .nonfinite) →
        sweep (eqs1 ++ bad :: eqs2) d t st = sweep (eqs1 ++ eqs2) d t st := by
  constructor
  · exact sweepStep_of_failed
  · intro d t st eqs1 eqs2 bad h
    unfold sweep
    rw [List.foldl_append, List.foldl_cons, List.foldl_append,
      sweepStep_of_failed d t _ bad (h _)]

/-- Witness for C8: inserting an always-raising equation after `eqX` does not
change the sweep. -/
theorem failing_equation_is_skipped_witness :
    sweep [eqX, eqFailR] (7 / 10) 0 stX = sweep [eqX] (7 / 10) 0 stX :=
  failing_equation_is_skipped.2 (7 / 10) 0 stX [eqX] [] eqFailR
    (fun _ => Or.inl rfl)

/-- C10: when the stored value at `(t, name)` is NaN before the update, the
old value is taken as 0.0: a successful update stores `damping*computed`, and
the update is excluded from the relative-change metric (`|0.0| ≤ 1e-10`). -/
theorem sweepStep_undefined_old (d : ℚ) (t : Int) (s : SweepState)
    (eq1 : Equation) (x : ℚ) (hf : eq1.func s.st t = .value x)
    (hold : s.st.get t eq1.name = none) :
    sweepStep d t s eq1 =
      ⟨s.st.set t eq1.name (some (d * x)), s.maxChange, s.worstVar⟩ := by
  have hd : damp d x 0 = d * x := by
    unfold damp
    ring
  simp only [sweepStep, hf, hold, Option.getD_none]
  rw [if_neg (by norm_num [nearZeroEps] : ¬(|(0 : ℚ)| > nearZeroEps)), hd]

/-- Witness for C10: updating `X` from a NaN cell stores `0.7 * 5` and leaves
the metric untouched. -/
theorem sweepStep_undefined_old_witness :
    eqX.func stNaN 0 = .value 5 ∧ stNaN.get 0 "X" = none ∧
      sweepStep (7 / 10) 0 ⟨stNaN, 0, ""⟩ eqX =
        ⟨stNaN.set 0 "X" (some ((7 / 10) * 5)), 0, ""⟩ :=
  ⟨rfl, by decide,
    sweepStep_undefined_old (7 / 10) 0 ⟨stNaN, 0, ""⟩ eqX 5 rfl (by decide)⟩

/-! ### C6: the convergence metric -/

/-- Following the spec's words: the relative changes
`|newStored − old| / |old|` of the successfully updated variables of one
pass, in registry order, excluding variables with `|old| ≤ 1e-10` (which are
still updated in the store being threaded through). -/
def sweepRelChanges (d : ℚ) (t : Int) : List Equation → Store → List ℚ
  | [], _ => []
  | e :: eqs, st =>
    match e.func st t with
    | .raised => sweepRelChanges d t eqs st
    | .nonfinite => sweepRelChanges d t eqs st
    | .value x =>
      let old := (st.get t e.name).getD 0
      let dv := damp d x old
      let st1 := st.set t e.name (some dv)
      if |old| > nearZeroEps then |(dv - old) / old| :: sweepRelChanges d t eqs st1
      else sweepRelChanges d t eqs st1

/-- The strict-greater update of `max_change` in the source is the binary
max. -/
theorem ite_gt_eq_max (a b : ℚ) : (if b > a then b else a) = max a b := by
  rcases le_or_lt b a with h | h
  · rw [if_neg (not_lt.mpr h), max_eq_left h]
  · rw [if_pos h, max_eq_right h.le]

theorem sweepFold_maxChange (d : ℚ) (t : Int) :
    ∀ (eqs : List Equation) (s : SweepState),
      (eqs.foldl (sweepStep d t) s).maxChange =
        (sweepRelChanges d t eqs s.st).foldl max s.maxChange
  | [], _ => rfl
  | e :: eqs, s => by
    rw [List.foldl_cons]
    rcases hf : e.func s.st t with _ | _ | x
    · rw [sweepStep_of_failed d t s e (Or.inl hf),
        sweepFold_maxChange d t eqs s]
      simp only [sweepRelChanges, hf]
    · rw [sweepStep_of_failed d t s e (Or.inr hf),
        sweepFold_maxChange d t eqs s]
      simp only [sweepRelChanges, hf]
    · simp only [sweepStep, sweepRelChanges, hf]
      by_cases hgt : |(s.st.get t e.name).getD 0| > nearZeroEps
      · rw [if_pos hgt, if_pos hgt, List.foldl_cons]
        split
        · rw [sweepFold_maxChange d t eqs _]
          congr 1
          exact (max_eq_right (by assumption : _ > s.maxChange).le).symm
        · rw [sweepFold_maxChange d t eqs _]
          congr 1
          exact (max_eq_left (not_lt.mp (by assumption))).symm
      · rw [if_neg hgt, if_neg hgt]
        exact sweepFold_maxChange d t eqs _

/-- C6: within a sweep, the tracked `max_change` is exactly the maximum of
`|newStored − old| / |old|` over the successfully updated variables with
`|old| > 1e-10`; and a successfully updated variable with `|old| ≤ 1e-10` is
still written (with the damped value) while leaving the metric untouched. -/
theorem convergence_metric_is_max (eqs : List Equation) (d : ℚ) (t : Int)
    (st : Store) :
    (sweep eqs d t st).maxChange = (sweepRelChanges d t eqs st).foldl max 0 ∧
    ∀ (s : SweepState) (e : Equation) (x old : ℚ),
      e.func s.st t = .value x → s.st.get t e.name = some old →
        |old| ≤ nearZeroEps →
        sweepStep d t s e =
          ⟨s.st.set t e.name (some (damp d x old)), s.maxChange, s.worstVar⟩ := by
  constructor
  · exact sweepFold_maxChange d t eqs ⟨st, 0, ""⟩
  · intro s e x old hf hold hle
    simp only [sweepStep, hf, hold, Option.getD_some]
    rw [if_neg (not_lt.mpr hle)]

/-- A store with column `X` holding 0.0 at period 0. -/
def stZero : Store := ⟨["X"], fun p v => if p = 0 ∧ v = "X" then some 0 else none⟩

/-- Witness for C6 on concrete fixtures: an ordinary update and a
near-zero-old update. -/
theorem convergence_metric_is_max_witness :
    eqX.func stZero 0 = .value 5 ∧ stZero.get 0 "X" = some 0 ∧
      |(0 : ℚ)| ≤ nearZeroEps ∧
      (sweep [eqX] (7 / 10) 0 stX).maxChange =
        (sweepRelChanges (7 / 10) 0 [eqX] stX).foldl max 0 ∧
      sweepStep (7 / 10) 0 ⟨stZero, 0, ""⟩ eqX =
        ⟨stZero.set 0 "X" (some (damp (7 / 10) 5 0)), 0, ""⟩ :=
  ⟨rfl, by decide, by norm_num [nearZeroEps],
    (convergence_metric_is_max [eqX] (7 / 10) 0 stX).1,
    (convergence_metric_is_max [eqX] (7 / 10) 0 stX).2 ⟨stZero, 0, ""⟩ eqX 5 0
      rfl (by decide) (by norm_num [nearZeroEps])⟩

/-! ### C5: the additive-adjustment post-processor -/

theorem adjStep_applicable (t : Int) (s : Store) (pr : String × String)
    (h1 : pr.1 ∈ s.columns) (h2 : pr.2 ∈ s.columns) (x : ℚ)
    (hadj : s.get t pr.2 = some x) :
    (adjStep t s pr).get t pr.1 = (s.get t pr.1).map (fun c => c + x) := by
  unfold adjStep
  rw [if_pos ⟨h1, h2⟩]
  rcases hcur : s.get t pr.1 with _ | c
  · simp only [hadj, hcur, Option.map_none']
    exact Store.get_set_self s t pr.1 none h1
  · simp only [hadj, hcur, Option.map_some']
    exact Store.get_set_self s t pr.1 (some (c + x)) h1

theorem adjStep_not_applicable (t : Int) (s : Store) (pr : String × String)
    (h : pr.1 ∉ s.columns ∨ pr.2 ∉ s.columns ∨ s.get t pr.2 = none) :
    adjStep t s pr = s := by
  unfold adjStep
  rcases h with h | h | h
  · rw [if_neg (by tauto)]
  · rw [if_neg (by tauto)]
  · by_cases hc : pr.1 ∈ s.columns ∧ pr.2 ∈ s.columns
    · rw [if_pos hc, h]
    · rw [if_neg hc]

/-- Cells of variables that are not adjustment targets are untouched by the
post-processor. -/
theorem foldl_adjStep_get_of_notMem (t : Int) (p : Int) (w : String) :
    ∀ (l : List (String × String)) (s : Store), w ∉ l.map Prod.fst →
      (l.foldl (adjStep t) s).get p w = s.get p w
  | [], _, _ => rfl
  | pr :: l, s, h => by
    rw [List.map_cons, List.mem_cons] at h
    push_neg at h
    rw [List.foldl_cons, foldl_adjStep_get_of_notMem t p w l _ h.2,
      adjStep_get_ne t s pr p w (Or.inr h.1)]

/-- Wrapper of `foldl_adjStep_get_of_notMem` phrased on
`applyAdditiveAdjustments`. -/
theorem applyAdditiveAdjustments_get_of_notMem (st : Store) (t : Int)
    (p : Int) (w : String) (h : w ∉ ADDITIVE_ADJUSTMENTS.map Prod.fst) :
    (applyAdditiveAdjustments st t).get p w = st.get p w :=
  foldl_adjStep_get_of_notMem t p w ADDITIVE_ADJUSTMENTS st h

theorem foldl_adjStep_columns (t : Int) :
    ∀ (l : List (String × String)) (s : Store),
      (l.foldl (adjStep t) s).columns = s.columns
  | [], _ => rfl
  | pr :: l, s => by
    rw [List.foldl_cons, foldl_adjStep_columns t l _, adjStep_columns]

/-- Applying the table to a member pair whose columns exist and whose
adjustment cell is defined adds the adjustment to the target cell (targets
are pairwise distinct and disjoint from the adjustment names). -/
theorem foldl_adjStep_get_target (t : Int) :
    ∀ (l : List (String × String)) (s : Store) (pr : String × String),
      pr ∈ l → (l.map Prod.fst).Nodup →
      (∀ a ∈ l, ∀ b ∈ l, a.1 ≠ b.2) →
      pr.1 ∈ s.columns → pr.2 ∈ s.columns → ∀ x : ℚ, s.get t pr.2 = some x →
      (l.foldl (adjStep t) s).get t pr.1 = (s.get t pr.1).map (fun c => c + x)
  | [], _, _, hmem, _, _, _, _, _, _ => absurd hmem (List.not_mem_nil _)
  | pr0 :: l, s, pr, hmem, hnd, hdisj, h1, h2, x, hadj => by
    rw [List.foldl_cons]
    rw [List.mem_cons] at hmem
    rw [List.map_cons, List.nodup_cons] at hnd
    obtain ⟨hnd1, hnd2⟩ := hnd
    rcases hmem with he | hmem
    · subst he
      rw [foldl_adjStep_get_of_notMem t t pr.1 l _ hnd1]
      exact adjStep_applicable t s pr h1 h2 x hadj
    · have hcol := adjStep_columns t s pr0
      have hne1 : pr.1 ≠ pr0.1 := by
        intro he
        exact hnd1 (he ▸ List.mem_map_of_mem Prod.fst hmem)
      have hne2 : pr0.1 ≠ pr.2 :=
        hdisj pr0 (List.mem_cons_self _ _) pr (List.mem_cons_of_mem _ hmem)
      have hadj1 : (adjStep t s pr0).get t pr.2 = some x := by
        rw [adjStep_get_ne t s pr0 t pr.2 (Or.inr (Ne.symm hne2))]
        exact hadj
      rw [foldl_adjStep_get_target t l (adjStep t s pr0) pr hmem hnd2
          (fun a ha b hb =>
            hdisj a (List.mem_cons_of_mem _ ha) b (List.mem_cons_of_mem _ hb))
          (by rw [hcol]; exact h1) (by rw [hcol]; exact h2) x hadj1,
        adjStep_get_ne t s pr0 t pr.1 (Or.inr hne1)]

/-- A member pair whose applicability condition fails leaves its target cell
unchanged. -/
theorem foldl_adjStep_get_target_skip (t : Int) :
    ∀ (l : List (String × String)) (s : Store) (pr : String × String),
      pr ∈ l → (l.map Prod.fst).Nodup →
      (∀ a ∈ l, ∀ b ∈ l, a.1 ≠ b.2) →
      (pr.1 ∉ s.columns ∨ pr.2 ∉ s.columns ∨ s.get t pr.2 = none) →
      (l.foldl (adjStep t) s).get t pr.1 = s.get t pr.1
  | [], _, _, hmem, _, _, _ => absurd hmem (List.not_mem_nil _)
  | pr0 :: l, s, pr, hmem, hnd, hdisj, hskip => by
    rw [List.foldl_cons]
    rw [List.mem_cons] at hmem
    rw [List.map_cons, List.nodup_cons] at hnd
    obtain ⟨hnd1, hnd2⟩ := hnd
    rcases hmem with he | hmem
    · subst he
      rw [adjStep_not_applicable t s pr hskip,
        foldl_adjStep_get_of_notMem t t pr.1 l _ hnd1]
    · have hcol := adjStep_columns t s pr0
      have hne1 : pr.1 ≠ pr0.1 := by
        intro he
        exact hnd1 (he ▸ List.mem_map_of_mem Prod.fst hmem)
      have hne2 : pr0.1 ≠ pr.2 :=
        hdisj pr0 (List.mem_cons_self _ _) pr (List.mem_cons_of_mem _ hmem)
      have hskip1 : pr.1 ∉ (adjStep t s pr0).columns ∨
          pr.2 ∉ (adjStep t s pr0).columns ∨
          (adjStep t s pr0).get t pr.2 = none := by
        rcases hskip with h | h | h
        · left
          rw [hcol]
          exact h
        · right
          left
          rw [hcol]
          exact h
        · right
          right
          rw [adjStep_get_ne t s pr0 t pr.2 (Or.inr (Ne.symm hne2))]
          exact h
      rw [foldl_adjStep_get_target_skip t l (adjStep t s pr0) pr hmem hnd2
          (fun a ha b hb =>
            hdisj a (List.mem_cons_of_mem _ ha) b (List.mem_cons_of_mem _ hb))
          hskip1,
        adjStep_get_ne t s pr0 t pr.1 (Or.inr hne1)]

/-- C5: the post-processor runs exactly once per period, after the sweep loop
ends (converged or exhausted); for each table pair with both columns present
and a defined adjustment cell it adds the adjustment to the target cell at
`t` (NaN targets stay NaN), pairs failing the condition leave their target
unchanged, and every cell that is not a target cell at `t` is unchanged. -/
theorem additive_adjustments_once_and_cellwise (S : GaussSeidelSolver)
    (st : Store) (t : Int) :
    (solvePeriod S st t).store =
      applyAdditiveAdjustments (periodLoop S st t).store t ∧
    ∀ (st1 : Store) (t1 : Int),
      (∀ pr ∈ ADDITIVE_ADJUSTMENTS,
        (∀ x : ℚ, pr.1 ∈ st1.columns → pr.2 ∈ st1.columns →
          st1.get t1 pr.2 = some x →
          (applyAdditiveAdjustments st1 t1).get t1 pr.1 =
            (st1.get t1 pr.1).map (fun c => c + x)) ∧
        ((pr.1 ∉ st1.columns ∨ pr.2 ∉ st1.columns ∨ st1.get t1 pr.2 = none) →
          (applyAdditiveAdjustments st1 t1).get t1 pr.1 = st1.get t1 pr.1)) ∧
      ∀ (p : Int) (w : String),
        p ≠ t1 ∨ w ∉ ADDITIVE_ADJUSTMENTS.map Prod.fst →
        (applyAdditiveAdjustments st1 t1).get p w = st1.get p w := by
  refine ⟨?_, ?_⟩
  · rcases hout : periodLoop S st t with ⟨n, stc⟩ | ⟨mc, wv, stc⟩
    · rw [solvePeriod_of_converged S st t n stc hout]
      dsimp only [SweepOutcome.store]
    · rw [solvePeriod_of_exhausted S st t mc wv stc hout]
      dsimp only [SweepOutcome.store]
  · intro st1 t1
    have hnd : (ADDITIVE_ADJUSTMENTS.map Prod.fst).Nodup := by decide
    have hdisj : ∀ a ∈ ADDITIVE_ADJUSTMENTS, ∀ b ∈ ADDITIVE_ADJUSTMENTS,
        a.1 ≠ b.2 := by decide
    refine ⟨fun pr hpr => ⟨?_, ?_⟩, ?_⟩
    · intro x h1 h2 hadj
      exact foldl_adjStep_get_target t1 ADDITIVE_ADJUSTMENTS st1 pr hpr hnd
        hdisj h1 h2 x hadj
    · intro h
      exact foldl_adjStep_get_target_skip t1 ADDITIVE_ADJUSTMENTS st1 pr hpr
        hnd hdisj h
    · intro p w h
      rcases h with h | h
      · exact applyAdditiveAdjustments_get_ne st1 t1 p w h
      · exact foldl_adjStep_get_of_notMem t1 p w ADDITIVE_ADJUSTMENTS st1 h

/-- A store with target `PRMIP` = 10 and adjustment `PRMIP_A` = 3 at period
0. -/
def stAdj : Store :=
  ⟨["PRMIP", "PRMIP_A"], fun p v =>
    if p = 0 ∧ v = "PRMIP" then some 10
    else if p = 0 ∧ v = "PRMIP_A" then some 3 else none⟩

/-- Witness for C5: the `PRMIP` pair on a concrete store, plus an untouched
cell. -/
theorem additive_adjustments_once_and_cellwise_witness :
    ("PRMIP", "PRMIP_A") ∈ ADDITIVE_ADJUSTMENTS ∧
      "PRMIP" ∈ stAdj.columns ∧ "PRMIP_A" ∈ stAdj.columns ∧
      stAdj.get 0 "PRMIP_A" = some 3 ∧
      (solvePeriod SnonFin stNaN 0).store =
        applyAdditiveAdjustments (periodLoop SnonFin stNaN 0).store 0 ∧
      (applyAdditiveAdjustments stAdj 0).get 0 "PRMIP" =
        (stAdj.get 0 "PRMIP").map (fun c => c + 3) ∧
      (applyAdditiveAdjustments stAdj 0).get 1 "PRMIP" = stAdj.get 1 "PRMIP" :=
  ⟨by decide, by decide, by decide, by decide,
    (additive_adjustments_once_and_cellwise SnonFin stNaN 0).1,
    (((additive_adjustments_once_and_cellwise SnonFin stNaN 0).2 stAdj 0).1
        ("PRMIP", "PRMIP_A") (by decide)).1 3 (by decide) (by decide) (by decide),
    ((additive_adjustments_once_and_cellwise SnonFin stNaN 0).2 stAdj 0).2 1
      "PRMIP" (Or.inl (by decide))⟩

/-! ### C2: non-convergence is recoverable -/

/-- If the loop runs out of budget after at least one sweep, the reported
`max_change` failed the tolerance test. -/
theorem sweepLoop_exhausted_tol_le (eqs : List Equation) (d tol : ℚ) (t : Int) :
    ∀ (rem : Nat) (last : ℚ × String) (done : Nat) (st : Store) (mc : ℚ)
      (wv : String) (st1 : Store), 1 ≤ rem →
      sweepLoop eqs d tol t last done rem st = .exhausted mc wv st1 →
      tol ≤ mc
  | 0, _, _, _, _, _, _, h, _ => absurd h (by omega)
  | rem + 1, last, done, st, mc, wv, st1, _, heq => by
    simp only [sweepLoop] at heq
    by_cases hlt : (sweep eqs d t st).maxChange < tol
    · rw [if_pos hlt] at heq
      cases heq
    · rw [if_neg hlt] at heq
      rcases Nat.eq_zero_or_pos rem with h0 | hpos
      · subst h0
        simp only [sweepLoop] at heq
        cases heq
        exact not_lt.mp hlt
      · exact sweepLoop_exhausted_tol_le eqs d tol t rem _ (done + 1) _ mc wv
          st1 hpos heq

/-- On exhaustion, the reported `(max_change, worst_var)` and final store are
those of the loop's final sweep. -/
theorem sweepLoop_exhausted_last_sweep (eqs : List Equation) (d tol : ℚ)
    (t : Int) :
    ∀ (rem : Nat) (last : ℚ × String) (done : Nat) (st : Store) (mc : ℚ)
      (wv : String) (st1 : Store), 1 ≤ rem →
      sweepLoop eqs d tol t last done rem st = .exhausted mc wv st1 →
      ∃ stPrev : Store, sweep eqs d t stPrev = ⟨st1, mc, wv⟩
  | 0, _, _, _, _, _, _, h, _ => absurd h (by omega)
  | rem + 1, last, done, st, mc, wv, st1, _, heq => by
    simp only [sweepLoop] at heq
    by_cases hlt : (sweep eqs d t st).maxChange < tol
    · rw [if_pos hlt] at heq
      cases heq
    · rw [if_neg hlt] at heq
      rcases Nat.eq_zero_or_pos rem with h0 | hpos
      · subst h0
        simp only [sweepLoop] at heq
        cases heq
        exact ⟨st, rfl⟩
      · exact sweepLoop_exhausted_last_sweep eqs d tol t rem _ (done + 1) _ mc
          wv st1 hpos heq

/-- The range driver produces one record per period of the range, in ascending
order, whatever the per-period outcomes. -/
theorem solveRangeGo_map_fst (S : GaussSeidelSolver) :
    ∀ (n : Nat) (t : Int) (st : Store),
      ((solveRangeGo S n t st).2).map Prod.fst =
        (List.range n).map (fun i : ℕ => t + (i : ℤ))
  | 0, _, _ => rfl
  | n + 1, t, st => by
    simp only [solveRangeGo, List.map_cons]
    rw [solveRangeGo_map_fst S n (t + 1) _, List.range_succ_eq_map,
      List.map_cons, List.map_map]
    congr 1
    · norm_num
    · apply List.map_congr_left
      intro i _
      simp only [Function.comp_apply]
      push_cast
      ring

/-- C2: when the sweep loop exhausts its budget without converging,
`solve_period` returns `max_iter`, records the warning data — the final
sweep's worst variable and its relative change, which failed the tolerance
test — still applies the additive adjustments to the final sweep state, and
raises nothing; `solve_range` still records every period of its range. -/
theorem nonconvergence_is_recoverable (S : GaussSeidelSolver) (st : Store)
    (t : Int) (hmi : 1 ≤ S.max_iter)
    (hex : (periodLoop S st t).isExhausted = true) :
    solvePeriod S st t =
      ⟨S.max_iter, applyAdditiveAdjustments (periodLoop S st t).store t,
        some ((periodLoop S st t).worstVar, (periodLoop S st t).maxChange)⟩ ∧
    S.tol ≤ (periodLoop S st t).maxChange ∧
    (∃ stPrev : Store,
      sweep S.equations S.damping t stPrev =
        ⟨(periodLoop S st t).store, (periodLoop S st t).maxChange,
          (periodLoop S st t).worstVar⟩) ∧
    ∀ (n : Nat) (t0 : Int) (st0 : Store),
      ((solveRangeGo S n t0 st0).2).map Prod.fst =
        (List.range n).map (fun i : ℕ => t0 + (i : ℤ)) := by
  rcases hout : periodLoop S st t with ⟨n, st1⟩ | ⟨mc, wv, st1⟩
  · rw [hout] at hex
    cases hex
  · have hout2 : sweepLoop S.equations S.damping S.tol t (0, "") 0 S.max_iter
        (preSolveCostBlock (initialisePeriod S.endogenousVars st t) t) =
        .exhausted mc wv st1 := hout
    refine ⟨?_, ?_, ?_, solveRangeGo_map_fst S⟩
    · rw [solvePeriod_of_exhausted S st t mc wv st1 hout]
      dsimp only [SweepOutcome.store, SweepOutcome.worstVar,
        SweepOutcome.maxChange]
    · exact sweepLoop_exhausted_tol_le S.equations S.damping S.tol t
        S.max_iter (0, "") 0 _ mc wv st1 hmi hout2
    · exact sweepLoop_exhausted_last_sweep S.equations S.damping S.tol t
        S.max_iter (0, "") 0 _ mc wv st1 hmi hout2

/-- Witness for C2 on the diverging fixture `Sdiverge` (`max_iter = 1`,
`tolerance = 1e-3`, `damping = 1`): the single sweep moves `X` from 1 to 5, a
relative change of 4. -/
theorem nonconvergence_is_recoverable_witness :
    1 ≤ Sdiverge.max_iter ∧ (periodLoop Sdiverge stX 0).isExhausted = true ∧
      Sdiverge.tol ≤ (periodLoop Sdiverge stX 0).maxChange :=
  ⟨by decide,
    by norm_num +decide [periodLoop, sweepLoop, sweep, sweepStep, Sdiverge,
      eqX, stX, Store.get, Store.set, Store.addColumn, initialisePeriod,
      initStep, preSolveCostBlock, costInputs, GaussSeidelSolver.endogenousVars,
      nearZeroEps, damp, SweepOutcome.isExhausted],
    (nonconvergence_is_recoverable Sdiverge stX 0 (by decide)
      (by norm_num +decide [periodLoop, sweepLoop, sweep, sweepStep, Sdiverge,
        eqX, stX, Store.get, Store.set, Store.addColumn, initialisePeriod,
        initStep, preSolveCostBlock, costInputs,
        GaussSeidelSolver.endogenousVars, nearZeroEps, damp,
        SweepOutcome.isExhausted])).2.1⟩

/-! ### C3: a persistently non-finite equation -/

/-- Counterexample to C3: `SnonFin`'s only equation returns a non-finite
value on every evaluation, yet `solve_period` reports convergence after one
sweep (the skipped variable contributes nothing to the metric) and emits no
non-convergence warning. -/
theorem persistent_nonfinite_converges :
    (solvePeriod SnonFin stNaN 0).iterations = 1 ∧
      (solvePeriod SnonFin stNaN 0).warning = none ∧
      SnonFin.max_iter = 5 := by
  refine ⟨?_, ?_, rfl⟩ <;>
    norm_num +decide [solvePeriod, periodLoop, sweepLoop, sweep, sweepStep,
      SnonFin, eqFailN, stNaN, Store.get, Store.set, Store.addColumn,
      initialisePeriod, initStep, preSolveCostBlock, applyAdditiveAdjustments,
      adjStep, ADDITIVE_ADJUSTMENTS, costInputs,
      GaussSeidelSolver.endogenousVars]

/-- A sweep over equations all of whose entries named `v` always fail leaves
the cell `(t, v)` unchanged and never records `v` as worst variable. -/
theorem sweepFold_skip_var (d : ℚ) (t : Int) (v : String) :
    ∀ (eqs : List Equation) (s : SweepState),
      (∀ e ∈ eqs, e.name = v →
        ∀ st1 : Store, e.func st1 t = .raised ∨ e.func st1 t = .nonfinite) →
      s.worstVar ≠ v →
      (eqs.foldl (sweepStep d t) s).st.get t v = s.st.get t v ∧
        (eqs.foldl (sweepStep d t) s).worstVar ≠ v
  | [], _, _, hw => ⟨rfl, hw⟩
  | e :: eqs, s, hfail, hw => by
    rw [List.foldl_cons]
    by_cases hev : e.name = v
    · rw [sweepStep_of_failed d t s e (hfail e (List.mem_cons_self _ _) hev s.st)]
      exact sweepFold_skip_var d t v eqs s
        (fun a ha => hfail a (List.mem_cons_of_mem _ ha)) hw
    · have hvne : v ≠ e.name := fun he => hev he.symm
      have h1 : (sweepStep d t s e).st.get t v = s.st.get t v := by
        simp only [sweepStep]
        split
        · rfl
        · rfl
        · split
          · split
            · exact Store.get_set_of_ne _ _ _ _ _ _ (Or.inr hvne)
            · exact Store.get_set_of_ne _ _ _ _ _ _ (Or.inr hvne)
          · exact Store.get_set_of_ne _ _ _ _ _ _ (Or.inr hvne)
      have h2 : (sweepStep d t s e).worstVar = s.worstVar ∨
          (sweepStep d t s e).worstVar = e.name := by
        simp only [sweepStep]
        split
        · exact Or.inl rfl
        · exact Or.inl rfl
        · split
          · split
            · exact Or.inr rfl
            · exact Or.inl rfl
          · exact Or.inl rfl
      have hw1 : (sweepStep d t s e).worstVar ≠ v := by
        rcases h2 with h | h
        · rw [h]
          exact hw
        · rw [h]
          exact hev
      obtain ⟨ha, hb⟩ := sweepFold_skip_var d t v eqs (sweepStep d t s e)
        (fun a ha => hfail a (List.mem_cons_of_mem _ ha)) hw1
      exact ⟨ha.trans h1, hb⟩

/-- The skip property carried through the whole iteration loop. -/
theorem sweepLoop_skip_var (eqs : List Equation) (d tol : ℚ) (t : Int)
    (v : String) (hv : v ≠ "")
    (hfail : ∀ e ∈ eqs, e.name = v →
      ∀ st1 : Store, e.func st1 t = .raised ∨ e.func st1 t = .nonfinite) :
    ∀ (rem : Nat) (last : ℚ × String) (done : Nat) (st : Store),
      last.2 ≠ v →
      (sweepLoop eqs d tol t last done rem st).store.get t v = st.get t v ∧
        (sweepLoop eqs d tol t last done rem st).worstVar ≠ v
  | 0, _, _, _, hlast => ⟨rfl, hlast⟩
  | rem + 1, last, done, st, _ => by
    simp only [sweepLoop]
    have hsw := sweepFold_skip_var d t v eqs ⟨st, 0, ""⟩ hfail (Ne.symm hv)
    split
    · exact ⟨hsw.1, Ne.symm hv⟩
    · obtain ⟨ha, hb⟩ := sweepLoop_skip_var eqs d tol t v hv hfail rem
        ((sweep eqs d t st).maxChange, (sweep eqs d t st).worstVar) (done + 1)
        (sweep eqs d t st).st hsw.2
      exact ⟨ha.trans hsw.1, hb⟩

/-- C3 amended: a variable all of whose registry entries fail (exception or
non-finite) on every evaluation is skipped on every pass — after
`solve_period` its value at `t` is whatever initialisation and the cost-block
pre-solve left there — and it never appears in the non-convergence warning;
convergence of the period is not prevented (see the counterexample
`persistent_nonfinite_converges`). -/
theorem persistent_nonfinite_skipped (S : GaussSeidelSolver) (st : Store)
    (t : Int) (v : String) (hv : v ≠ "")
    (hfail : ∀ e ∈ S.equations, e.name = v →
      ∀ st1 : Store, e.func st1 t = .raised ∨ e.func st1 t = .nonfinite)
    (hadj : v ∉ ADDITIVE_ADJUSTMENTS.map Prod.fst) :
    (solvePeriod S st t).store.get t v =
      (preSolveCostBlock (initialisePeriod S.endogenousVars st t) t).get t v ∧
    (solvePeriod S st t).warning.map Prod.fst ≠ some v := by
  have hloop : (periodLoop S st t).store.get t v =
      (preSolveCostBlock (initialisePeriod S.endogenousVars st t) t).get t v ∧
      (periodLoop S st t).worstVar ≠ v :=
    sweepLoop_skip_var S.equations S.damping S.tol t v hv hfail S.max_iter
      (0, "") 0 _ (Ne.symm hv)
  rcases hout : periodLoop S st t with ⟨n, st1⟩ | ⟨mc, wv, st1⟩ <;>
    rw [hout] at hloop
  · rw [solvePeriod_of_converged S st t n st1 hout]
    refine ⟨?_, ?_⟩
    · dsimp only
      rw [applyAdditiveAdjustments_get_of_notMem st1 t t v hadj]
      exact hloop.1
    · dsimp only
      intro hcontra
      simp only [Option.map_none'] at hcontra
      cases hcontra
  · rw [solvePeriod_of_exhausted S st t mc wv st1 hout]
    refine ⟨?_, ?_⟩
    · dsimp only
      rw [applyAdditiveAdjustments_get_of_notMem st1 t t v hadj]
      exact hloop.1
    · dsimp only
      intro hcontra
      simp only [Option.map_some'] at hcontra
      exact hloop.2 (Option.some.inj hcontra)

/-- Witness for the amended C3 on the `SnonFin` fixture. -/
theorem persistent_nonfinite_skipped_witness :
    ("X" : String) ≠ "" ∧ "X" ∉ ADDITIVE_ADJUSTMENTS.map Prod.fst ∧
      (solvePeriod SnonFin stNaN 0).store.get 0 "X" =
        (preSolveCostBlock
          (initialisePeriod SnonFin.endogenousVars stNaN 0) 0).get 0 "X" :=
  ⟨by decide, by decide,
    (persistent_nonfinite_skipped SnonFin stNaN 0 "X" (by decide)
      (by
        intro e he hn st1
        rw [show SnonFin.equations = [eqFailN] from rfl,
          List.mem_singleton] at he
        subst he
        exact Or.inr rfl)
      (by decide)).1⟩

/-! ### C4: exactness of the cost-block pre-solver -/

theorem costDet_ne_zero : costDet ≠ 0 := by
  norm_num [costDet, det3, cA11, cA12, cA13, cA21, cA22, cA23, cA31, cA32, cA33]

/-- The Cramer solution satisfies the three original cost equations
exactly. -/
theorem costSolve_correct (b1 b2 b3 : ℚ) :
    (costSolve b1 b2 b3).1 =
      b1 + 1.64 / 100 * (costSolve b1 b2 b3).2.1 +
        1.09 / 100 * (costSolve b1 b2 b3).2.2 ∧
    (costSolve b1 b2 b3).2.1 =
      b2 + 28.13 / 100 * (costSolve b1 b2 b3).1 +
        0.34 / 100 * (costSolve b1 b2 b3).2.2 ∧
    (costSolve b1 b2 b3).2.2 =
      b3 + 16.00 / 100 * (costSolve b1 b2 b3).1 +
        2.95 / 100 * (costSolve b1 b2 b3).2.1 := by
  have hd := costDet_ne_zero
  unfold costSolve
  dsimp only
  refine ⟨?_, ?_, ?_⟩ <;>
  · field_simp
    norm_num [det3, cA11, cA12, cA13, cA21, cA22, cA23, cA31, cA32, cA33,
      costDet]
    ring

/-- When every input is present and defined and no divisor vanishes, the
pre-solver writes exactly the Cramer solution for the exogenous parts
`a1, a2, a3`. -/
theorem preSolveCostBlock_spec (st : Store) (t : Int)
    (ulcms pmnog pms pbrent rxd bpaps gva ppiy ulcmsbase pmnogbase pmsbase
      oilbase txratebase ppiybase : ℚ)
    (hS : "SCOST" ∈ st.columns)
    (hcols : ∀ v ∈ costInputs, v ∈ st.columns)
    (h1 : st.val t "ULCMS" = some ulcms) (h2 : st.val t "PMNOG" = some pmnog)
    (h3 : st.val t "PMS" = some pms) (h4 : st.val t "PBRENT" = some pbrent)
    (h5 : st.val t "RXD" = some rxd) (h6 : st.val t "BPAPS" = some bpaps)
    (h7 : st.val t "GVA" = some gva) (h8 : st.val t "PPIY" = some ppiy)
    (h9 : st.val t "ULCMSBASE" = some ulcmsbase)
    (h10 : st.val t "PMNOGBASE" = some pmnogbase)
    (h11 : st.val t "PMSBASE" = some pmsbase)
    (h12 : st.val t "OILBASE" = some oilbase)
    (h13 : st.val t "TXRATEBASE" = some txratebase)
    (h14 : st.val t "PPIYBASE" = some ppiybase)
    (hz1 : ulcmsbase ≠ 0) (hz2 : pmnogbase ≠ 0) (hz3 : pmsbase ≠ 0)
    (hz4 : rxd ≠ 0) (hz5 : oilbase ≠ 0) (hz6 : gva ≠ 0) (hz7 : txratebase ≠ 0)
    (hz8 : ppiybase ≠ 0) :
    preSolveCostBlock st t =
      ((st.set t "SCOST" (some (costSolve
          (costA1 (ulcms / ulcmsbase) (pmnog / pmnogbase) (pms / pmsbase)
            (pbrent / rxd / oilbase) (bpaps / gva / txratebase) (ppiy / ppiybase))
          (costA2 (ulcms / ulcmsbase) (pmnog / pmnogbase) (pms / pmsbase)
            (pbrent / rxd / oilbase) (bpaps / gva / txratebase) (ppiy / ppiybase))
          (costA3 (ulcms / ulcmsbase) (pmnog / pmnogbase) (pms / pmsbase)
            (pbrent / rxd / oilbase) (bpaps / gva / txratebase) (ppiy / ppiybase))).1)).set
        t "CCOST" (some (costSolve
          (costA1 (ulcms / ulcmsbase) (pmnog / pmnogbase) (pms / pmsbase)
            (pbrent / rxd / oilbase) (bpaps / gva / txratebase) (ppiy / ppiybase))
          (costA2 (ulcms / ulcmsbase) (pmnog / pmnogbase) (pms / pmsbase)
            (pbrent / rxd / oilbase) (bpaps / gva / txratebase) (ppiy / ppiybase))
          (costA3 (ulcms / ulcmsbase) (pmnog / pmnogbase) (pms / pmsbase)
            (pbrent / rxd / oilbase) (bpaps / gva / txratebase) (ppiy / ppiybase))).2.1)).set
        t "UTCOST" (some (costSolve
          (costA1 (ulcms / ulcmsbase) (pmnog / pmnogbase) (pms / pmsbase)
            (pbrent / rxd / oilbase) (bpaps / gva / txratebase) (ppiy / ppiybase))
          (costA2 (ulcms / ulcmsbase) (pmnog / pmnogbase) (pms / pmsbase)
            (pbrent / rxd / oilbase) (bpaps / gva / txratebase) (ppiy / ppiybase))
          (costA3 (ulcms / ulcmsbase) (pmnog / pmnogbase) (pms / pmsbase)
            (pbrent / rxd / oilbase) (bpaps / gva / txratebase) (ppiy / ppiybase))).2.2) := by
  have e1 : fdiv (st.val t "ULCMS") (st.val t "ULCMSBASE") =
      some (ulcms / ulcmsbase) := by
    rw [h1, h9]
    simp [fdiv, hz1]
  have e2 : fdiv (st.val t "PMNOG") (st.val t "PMNOGBASE") =
      some (pmnog / pmnogbase) := by
    rw [h2, h10]
    simp [fdiv, hz2]
  have e3 : fdiv (st.val t "PMS") (st.val t "PMSBASE") =
      some (pms / pmsbase) := by
    rw [h3, h11]
    simp [fdiv, hz3]
  have e4 : fdiv (fdiv (st.val t "PBRENT") (st.val t "RXD"))
      (st.val t "OILBASE") = some (pbrent / rxd / oilbase) := by
    rw [h4, h5, h12]
    simp [fdiv, hz4, hz5]
  have e5 : fdiv (fdiv (st.val t "BPAPS") (st.val t "GVA"))
      (st.val t "TXRATEBASE") = some (bpaps / gva / txratebase) := by
    rw [h6, h7, h13]
    simp [fdiv, hz6, hz7]
  have e6 : fdiv (st.val t "PPIY") (st.val t "PPIYBASE") =
      some (ppiy / ppiybase) := by
    rw [h8, h14]
    simp [fdiv, hz8]
  unfold preSolveCostBlock
  rw [if_pos ⟨hS, hcols⟩]
  simp only [e1, e2, e3, e4, e5, e6, costSolveO]

/-- C4: whenever the pre-solver completes (all inputs present and defined,
divisors nonzero; the constant matrix is nonsingular, `costDet_ne_zero`), the
three values written for SCOST, CCOST and UTCOST satisfy the three original
cost equations — here exactly, hence a fortiori within `1e-9` relative
error. -/
theorem cost_block_satisfies_equations (st : Store) (t : Int)
    (ulcms pmnog pms pbrent rxd bpaps gva ppiy ulcmsbase pmnogbase pmsbase
      oilbase txratebase ppiybase : ℚ)
    (hS : "SCOST" ∈ st.columns) (hC : "CCOST" ∈ st.columns)
    (hU : "UTCOST" ∈ st.columns)
    (hcols : ∀ v ∈ costInputs, v ∈ st.columns)
    (h1 : st.val t "ULCMS" = some ulcms) (h2 : st.val t "PMNOG" = some pmnog)
    (h3 : st.val t "PMS" = some pms) (h4 : st.val t "PBRENT" = some pbrent)
    (h5 : st.val t "RXD" = some rxd) (h6 : st.val t "BPAPS" = some bpaps)
    (h7 : st.val t "GVA" = some gva) (h8 : st.val t "PPIY" = some ppiy)
    (h9 : st.val t "ULCMSBASE" = some ulcmsbase)
    (h10 : st.val t "PMNOGBASE" = some pmnogbase)
    (h11 : st.val t "PMSBASE" = some pmsbase)
    (h12 : st.val t "OILBASE" = some oilbase)
    (h13 : st.val t "TXRATEBASE" = some txratebase)
    (h14 : st.val t "PPIYBASE" = some ppiybase)
    (hz1 : ulcmsbase ≠ 0) (hz2 : pmnogbase ≠ 0) (hz3 : pmsbase ≠ 0)
    (hz4 : rxd ≠ 0) (hz5 : oilbase ≠ 0) (hz6 : gva ≠ 0) (hz7 : txratebase ≠ 0)
    (hz8 : ppiybase ≠ 0) :
    ∃ sc cc ut : ℚ,
      (preSolveCostBlock st t).get t "SCOST" = some sc ∧
      (preSolveCostBlock st t).get t "CCOST" = some cc ∧
      (preSolveCostBlock st t).get t "UTCOST" = some ut ∧
      |sc - (costA1 (ulcms / ulcmsbase) (pmnog / pmnogbase) (pms / pmsbase)
          (pbrent / rxd / oilbase) (bpaps / gva / txratebase) (ppiy / ppiybase) +
          1.64 * (cc / 100) + 1.09 * (ut / 100))| ≤
        1 / 10 ^ 9 *
          |costA1 (ulcms / ulcmsbase) (pmnog / pmnogbase) (pms / pmsbase)
            (pbrent / rxd / oilbase) (bpaps / gva / txratebase) (ppiy / ppiybase) +
            1.64 * (cc / 100) + 1.09 * (ut / 100)| ∧
      |cc - (costA2 (ulcms / ulcmsbase) (pmnog / pmnogbase) (pms / pmsbase)
          (pbrent / rxd / oilbase) (bpaps / gva / txratebase) (ppiy / ppiybase) +
          28.13 * (sc / 100) + 0.34 * (ut / 100))| ≤
        1 / 10 ^ 9 *
          |costA2 (ulcms / ulcmsbase) (pmnog / pmnogbase) (pms / pmsbase)
            (pbrent / rxd / oilbase) (bpaps / gva / txratebase) (ppiy / ppiybase) +
            28.13 * (sc / 100) + 0.34 * (ut / 100)| ∧
      |ut - (costA3 (ulcms / ulcmsbase) (pmnog / pmnogbase) (pms / pmsbase)
          (pbrent / rxd / oilbase) (bpaps / gva / txratebase) (ppiy / ppiybase) +
          16.00 * (sc / 100) + 2.95 * (cc / 100))| ≤
        1 / 10 ^ 9 *
          |costA3 (ulcms / ulcmsbase) (pmnog / pmnogbase) (pms / pmsbase)
            (pbrent / rxd / oilbase) (bpaps / gva / txratebase) (ppiy / ppiybase) +
            16.00 * (sc / 100) + 2.95 * (cc / 100)| := by
  have hpre := preSolveCostBlock_spec st t ulcms pmnog pms pbrent rxd bpaps gva
    ppiy ulcmsbase pmnogbase pmsbase oilbase txratebase ppiybase hS hcols h1 h2
    h3 h4 h5 h6 h7 h8 h9 h10 h11 h12 h13 h14 hz1 hz2 hz3 hz4 hz5 hz6 hz7 hz8
  set b1 := costA1 (ulcms / ulcmsbase) (pmnog / pmnogbase) (pms / pmsbase)
    (pbrent / rxd / oilbase) (bpaps / gva / txratebase) (ppiy / ppiybase) with hb1
  set b2 := costA2 (ulcms / ulcmsbase) (pmnog / pmnogbase) (pms / pmsbase)
    (pbrent / rxd / oilbase) (bpaps / gva / txratebase) (ppiy / ppiybase) with hb2
  set b3 := costA3 (ulcms / ulcmsbase) (pmnog / pmnogbase) (pms / pmsbase)
    (pbrent / rxd / oilbase) (bpaps / gva / txratebase) (ppiy / ppiybase) with hb3
  obtain ⟨q1, q2, q3⟩ := costSolve_correct b1 b2 b3
  refine ⟨(costSolve b1 b2 b3).1, (costSolve b1 b2 b3).2.1,
    (costSolve b1 b2 b3).2.2, ?_, ?_, ?_, ?_, ?_, ?_⟩
  · rw [hpre, Store.get_set_of_ne _ _ _ _ _ _ (Or.inr (by decide)),
      Store.get_set_of_ne _ _ _ _ _ _ (Or.inr (by decide))]
    exact Store.get_set_self st t "SCOST" _ hS
  · rw [hpre, Store.get_set_of_ne _ _ _ _ _ _ (Or.inr (by decide))]
    exact Store.get_set_self _ t "CCOST" _ hC
  · rw [hpre]
    exact Store.get_set_self _ t "UTCOST" _ hU
  · have hx : (costSolve b1 b2 b3).1 =
        b1 + 1.64 * ((costSolve b1 b2 b3).2.1 / 100) +
          1.09 * ((costSolve b1 b2 b3).2.2 / 100) := by
      rw [q1]
      ring
    rw [hx, sub_self, abs_zero]
    positivity
  · have hx : (costSolve b1 b2 b3).2.1 =
        b2 + 28.13 * ((costSolve b1 b2 b3).1 / 100) +
          0.34 * ((costSolve b1 b2 b3).2.2 / 100) := by
      rw [q2]
      ring
    rw [hx, sub_self, abs_zero]
    positivity
  · have hx : (costSolve b1 b2 b3).2.2 =
        b3 + 16.00 * ((costSolve b1 b2 b3).1 / 100) +
          2.95 * ((costSolve b1 b2 b3).2.1 / 100) := by
      rw [q3]
      ring
    rw [hx, sub_self, abs_zero]
    positivity

/-- A store holding all fourteen pre-solver inputs (value 1.0) plus the three
cost columns, NaN elsewhere. -/
def stCost : Store :=
  ⟨"SCOST" :: "CCOST" :: "UTCOST" :: costInputs,
   fun p v => if p = 0 ∧ v ∈ costInputs then some 1 else none⟩

/-- Witness for C4 on `stCost` (every input 1.0). -/
theorem cost_block_satisfies_equations_witness :
    "SCOST" ∈ stCost.columns ∧ stCost.val 0 "ULCMS" = some 1 ∧
      ∃ sc cc ut : ℚ,
        (preSolveCostBlock stCost 0).get 0 "SCOST" = some sc ∧
        (preSolveCostBlock stCost 0).get 0 "CCOST" = some cc ∧
        (preSolveCostBlock stCost 0).get 0 "UTCOST" = some ut ∧
        |sc - (costA1 (1 / 1) (1 / 1) (1 / 1) (1 / 1 / 1) (1 / 1 / 1) (1 / 1) +
            1.64 * (cc / 100) + 1.09 * (ut / 100))| ≤
          1 / 10 ^ 9 *
            |costA1 (1 / 1) (1 / 1) (1 / 1) (1 / 1 / 1) (1 / 1 / 1) (1 / 1) +
              1.64 * (cc / 100) + 1.09 * (ut / 100)| ∧
        |cc - (costA2 (1 / 1) (1 / 1) (1 / 1) (1 / 1 / 1) (1 / 1 / 1) (1 / 1) +
            28.13 * (sc / 100) + 0.34 * (ut / 100))| ≤
          1 / 10 ^ 9 *
            |costA2 (1 / 1) (1 / 1) (1 / 1) (1 / 1 / 1) (1 / 1 / 1) (1 / 1) +
              28.13 * (sc / 100) + 0.34 * (ut / 100)| ∧
        |ut - (costA3 (1 / 1) (1 / 1) (1 / 1) (1 / 1 / 1) (1 / 1 / 1) (1 / 1) +
            16.00 * (sc / 100) + 2.95 * (cc / 100))| ≤
          1 / 10 ^ 9 *
            |costA3 (1 / 1) (1 / 1) (1 / 1) (1 / 1 / 1) (1 / 1 / 1) (1 / 1) +
              16.00 * (sc / 100) + 2.95 * (cc / 100)| :=
  ⟨by decide, by decide,
    cost_block_satisfies_equations stCost 0 1 1 1 1 1 1 1 1 1 1 1 1 1 1
      (by decide) (by decide) (by decide) (by decide) (by decide) (by decide)
      (by decide) (by decide) (by decide) (by decide) (by decide) (by decide)
      (by decide) (by decide) (by decide) (by decide) (by decide) (by decide)
      one_ne_zero one_ne_zero one_ne_zero one_ne_zero one_ne_zero one_ne_zero
      one_ne_zero one_ne_zero⟩

end Exchequer
